import Mathlib

/-!
# Verification of the Coin Collector netcode core

Shallow embedding of the authoritative multiplayer game server (`server.js`,
two versions: an older one using a per-player `inputs` queue and the current
one using a per-direction pressed-state map) and of the browser client
(`public/client.js`): snapshot buffer, bracketing scan and linear
interpolation.

Positions, timestamps and interpolation factors are modelled as rationals
(`ℚ`); all the concrete values the development evaluates are exact in both
IEEE doubles and `ℚ`.  Randomized values (`uuid`, `Math.random` spawn
positions, `Date.now` readings) are modelled as oracle parameters.
-/

namespace CoinGame

/-! ## Configuration constants (server.js `--- CONFIGURATION ---`) -/

def MAP_WIDTH : ℚ := 800
def MAP_HEIGHT : ℚ := 600
def PLAYER_SIZE : ℚ := 20
def COIN_SIZE : ℚ := 10
def MOVEMENT_SPEED : ℚ := 5
def LATENCY_MS : ℕ := 200
def RENDER_DELAY : ℚ := 100

/-! ## Server data model -/

/-- A movement direction, one of the four accepted `key` values. -/
inductive Dir where
  | up | down | left | right
deriving DecidableEq, Repr

/-- The per-direction pressed-state map kept by the current server version:
`pressed: { up: false, down: false, left: false, right: false }`. -/
structure Pressed where
  up : Bool
  down : Bool
  left : Bool
  right : Bool
deriving DecidableEq, Repr

def Pressed.get (pr : Pressed) : Dir → Bool
  | .up => pr.up
  | .down => pr.down
  | .left => pr.left
  | .right => pr.right

def Pressed.set (pr : Pressed) : Dir → Bool → Pressed
  | .up, b => { pr with up := b }
  | .down, b => { pr with down := b }
  | .left, b => { pr with left := b }
  | .right, b => { pr with right := b }

/-- A player entity of the current server version
(`PLAYERS[playerId] = { id, x, y, score, color, pressed }`). -/
structure Player where
  id : String
  x : ℚ
  y : ℚ
  score : ℕ
  color : String
  pressed : Pressed
deriving DecidableEq, Repr

/-- Boundary check `Math.max(0, Math.min(MAP_SIZE.width, x))`. -/
def clampX (x : ℚ) : ℚ := max 0 (min MAP_WIDTH x)

/-- Boundary check `Math.max(0, Math.min(MAP_SIZE.height, y))`. -/
def clampY (y : ℚ) : ℚ := max 0 (min MAP_HEIGHT y)

/-- The freshly connected player: centered position, zero score, nothing
pressed (`x: MAP_SIZE.width / 2, y: MAP_SIZE.height / 2, score: 0`). -/
def initPlayer (pid col : String) : Player :=
  { id := pid, x := MAP_WIDTH / 2, y := MAP_HEIGHT / 2, score := 0, color := col,
    pressed := ⟨false, false, false, false⟩ }

/-- Intent application
`PLAYERS[playerId].pressed[data.key] = (data.action === 'start')`. -/
def setPressed (p : Player) (d : Dir) (b : Bool) : Player :=
  { p with pressed := p.pressed.set d b }

/-- The backward-compatibility branch of the message handler: apply one
single-shot movement step immediately, then clamp both coordinates. -/
def oneShotMove (p : Player) (d : Dir) : Player :=
  let y := match d with
    | .up => p.y - MOVEMENT_SPEED
    | .down => p.y + MOVEMENT_SPEED
    | _ => p.y
  let x := match d with
    | .left => p.x - MOVEMENT_SPEED
    | .right => p.x + MOVEMENT_SPEED
    | _ => p.x
  { p with x := clampX x, y := clampY y }

/-- One game-loop movement step for one player: apply every currently
pressed direction at `MOVEMENT_SPEED`, then clamp to the map rectangle
(server.js game loop, steps `p.pressed.up … p.pressed.right` + boundary
checks). -/
def movePlayer (p : Player) : Player :=
  let y1 := if p.pressed.up then p.y - MOVEMENT_SPEED else p.y
  let y2 := if p.pressed.down then y1 + MOVEMENT_SPEED else y1
  let x1 := if p.pressed.left then p.x - MOVEMENT_SPEED else p.x
  let x2 := if p.pressed.right then x1 + MOVEMENT_SPEED else x1
  { p with x := clampX x2, y := clampY y2 }

/-! ## Per-player event sequences

The serialized single-threaded event loop interleaves, for one player,
message-handler callbacks (start/stop intents and backward-compatible
single-shot inputs) with game-loop ticks. -/

/-- One event affecting a single player's kinematic state. -/
inductive PEvent where
  /-- a validated `{action:'start'}` intent for direction `d` -/
  | start (d : Dir)
  /-- a validated `{action:'stop'}` intent for direction `d` -/
  | stop (d : Dir)
  /-- a backward-compatibility single-shot input for direction `d` -/
  | singleShot (d : Dir)
  /-- one firing of the 20 Hz game-loop movement step -/
  | tick
deriving DecidableEq, Repr

def applyEvent (p : Player) : PEvent → Player
  | .start d => setPressed p d true
  | .stop d => setPressed p d false
  | .singleShot d => oneShotMove p d
  | .tick => movePlayer p

def runEvents (es : List PEvent) (p : Player) : Player :=
  es.foldl applyEvent p

/-- Position lies inside `[0, mapWidth] × [0, mapHeight]`. -/
def inBounds (p : Player) : Prop :=
  0 ≤ p.x ∧ p.x ≤ MAP_WIDTH ∧ 0 ≤ p.y ∧ p.y ≤ MAP_HEIGHT

instance (p : Player) : Decidable (inBounds p) := by
  unfold inBounds; infer_instance

/-! ## Coins and collision resolution

`spawnCoin` pushes a coin at a `Math.random`-derived position; the stream of
freshly randomized coins is an oracle `Nat → Coin` indexed by a spawn
counter. -/

/-- A coin entity (`{ id: uuidv4(), x: …, y: … }`). -/
structure Coin where
  cid : String
  x : ℚ
  y : ℚ
deriving DecidableEq, Repr

/-- The collision test of the game loop:
`dist = Math.sqrt(dx*dx + dy*dy); dist < PLAYER_SIZE + COIN_SIZE`.
Since both sides are nonnegative, `sqrt(dx² + dy²) < 30` holds exactly when
`dx² + dy² < 30²`, which is how the square root is eliminated here. -/
def collides (p : Player) (c : Coin) : Bool :=
  decide ((p.x - c.x) ^ 2 + (p.y - c.y) ^ 2 < (PLAYER_SIZE + COIN_SIZE) ^ 2)

/-- One iteration of the backward `for (let i = COINS.length - 1; i >= 0; i--)`
collision loop at index `i`: on a hit, increment the score, `splice(i, 1)`
the coin out and push the next oracle coin (`spawnCoin`), advancing the
spawn counter `k`. -/
def coinStep (oracle : ℕ → Coin) (i : ℕ) :
    Player × List Coin × ℕ → Player × List Coin × ℕ
  | (p, coins, k) =>
    match coins.get? i with
    | none => (p, coins, k)
    | some c =>
      if collides p c then
        ({ p with score := p.score + 1 }, coins.eraseIdx i ++ [oracle k], k + 1)
      else
        (p, coins, k)

/-- The whole backward collision loop for one player: indices
`n-1, n-2, …, 0` in that order (`coinLoop oracle n` is called with
`n = COINS.length`, mirroring `i = COINS.length - 1` downwards). -/
def coinLoop (oracle : ℕ → Coin) :
    ℕ → Player × List Coin × ℕ → Player × List Coin × ℕ
  | 0, st => st
  | n + 1, st => coinLoop oracle n (coinStep oracle n st)

/-- The body of the game loop's `for (const id in PLAYERS)` iteration for
one player: apply the pressed-state movement and clamp, then run this
player's collision loop against the shared coin list. -/
def tickPlayerStep (oracle : ℕ → Coin) (acc : List Player × List Coin × ℕ)
    (p : Player) : List Player × List Coin × ℕ :=
  match coinLoop oracle acc.2.1.length (movePlayer p, acc.2.1, acc.2.2) with
  | (p2, coins2, k2) => (acc.1 ++ [p2], coins2, k2)

/-- One firing of the authoritative 20 Hz game loop over a list of players:
for each player in order, movement then collision resolution. -/
def tickWorld (oracle : ℕ → Coin) (players : List Player) (coins : List Coin)
    (k : ℕ) : List Player × List Coin × ℕ :=
  players.foldl (tickPlayerStep oracle) ([], coins, k)

/-- The initial coin pool: `for (let i = 0; i < 5; i++) spawnCoin();`. -/
def initCoins (oracle : ℕ → Coin) : List Coin :=
  (List.range 5).map oracle

/-- Iterated game-loop firings; the per-tick player lists `pseq` are
arbitrary (players connect, disconnect and receive intents between ticks),
so every sequence of movements and collisions is covered.  Returns the
coin list and spawn counter after `n` ticks. -/
def runTicks (oracle : ℕ → Coin) (pseq : ℕ → List Player) :
    ℕ → List Coin × ℕ → List Coin × ℕ
  | 0, st => st
  | n + 1, st =>
    let st1 := tickWorld oracle (pseq n) st.1 st.2
    runTicks oracle pseq n (st1.2.1, st1.2.2)

/-! ## The inbound message handler (current server version)

`ws.on('message')` parses the payload and, for an existing player, either
updates the pressed-state (validated `start`/`stop` intent), applies a
backward-compatibility single-shot move (valid key, unrecognized action),
or drops the message. -/

/-- An inbound client message after transport framing: either unparsable
JSON or a parsed object with optional `type`/`key`/`action` fields. -/
inductive ClientMsg where
  | malformed
  | obj (type key action : Option String)
deriving DecidableEq, Repr

/-- Key validation `['up','down','left','right'].includes(data.key)`,
returning the direction. -/
def dirOfKey : Option String → Option Dir
  | some "up" => some .up
  | some "down" => some .down
  | some "left" => some .left
  | some "right" => some .right
  | _ => none

/-- The effect of one inbound message on its (still connected) player.
Mirrors the handler body: malformed JSON is caught (`catch`), a non-`input`
type is ignored, a valid key with `start`/`stop` sets the pressed flag,
a valid key with any other action takes the backward-compatibility branch,
and an invalid key is dropped. -/
def handleMessage (m : ClientMsg) (p : Player) : Player :=
  match m with
  | .malformed => p
  | .obj ty key action =>
    if ty = some "input" then
      match dirOfKey key with
      | some d =>
        if action = some "start" ∨ action = some "stop" then
          setPressed p d (action = some "start")
        else
          oneShotMove p d
      | none => p
    else p

/-! ## The delay mechanism

Both inbound intents and outbound snapshots are delayed with an independent
`setTimeout(…, LATENCY_MS)` per payload.  Payload `i` is submitted at wall
time `sub[i]` and becomes due at `sub[i] + LATENCY_MS`; adversarial timer
jitter delays its actual firing by `jitter i ≥ 0`.  A fired timer releases
its payload immediately, so the release order is the firing order, with
ties broken by submission (creation) order as the event loop does. -/

/-- The wall-clock instant at which payload `i`'s timer actually fires. -/
def releaseTime (sub : List ℕ) (jitter : ℕ → ℕ) (i : ℕ) : ℕ :=
  sub.getD i 0 + LATENCY_MS + jitter i

/-- Payload `i` is released before payload `j`. -/
def releasedBefore (sub : List ℕ) (jitter : ℕ → ℕ) (i j : ℕ) : Prop :=
  releaseTime sub jitter i < releaseTime sub jitter j ∨
    (releaseTime sub jitter i = releaseTime sub jitter j ∧ i < j)

instance (sub : List ℕ) (jitter : ℕ → ℕ) (i j : ℕ) :
    Decidable (releasedBefore sub jitter i j) := by
  unfold releasedBefore; infer_instance

/-! ## Snapshots and their serialization

The current server builds `playersForSend` by copying exactly
`id, x, y, score, color` per player; the older server version put the live
`PLAYERS` map (whose players also carry the `inputs` queue) straight into
the state packet.  `JSON.stringify` output is modelled by a small JSON
value type; an object's key list is what the wire format exposes. -/

/-- A JSON value, as produced by `JSON.stringify`. -/
inductive JVal where
  | num (q : ℚ)
  | str (s : String)
  | arr (xs : List JVal)
  | obj (fields : List (String × JVal))
deriving Repr

/-- The keys an object value serializes, in insertion order. -/
def JVal.keys : JVal → List String
  | .obj fields => fields.map Prod.fst
  | _ => []

/-- The per-player view built by the current server's `playersForSend`
loop: `{ id: p.id, x: p.x, y: p.y, score: p.score, color: p.color }`. -/
def playerForSendJson (p : Player) : JVal :=
  .obj [("id", .str p.id), ("x", .num p.x), ("y", .num p.y),
        ("score", .num p.score), ("color", .str p.color)]

/-- A player entity of the older server version:
`{ id, x, y, score, color, inputs: [] }` with a queued-inputs array
instead of a pressed-state map. -/
structure OldPlayer where
  id : String
  x : ℚ
  y : ℚ
  score : ℕ
  color : String
  inputs : List String
deriving DecidableEq, Repr

/-- What `JSON.stringify` emits for one player of the older server version,
whose state packet is `players: PLAYERS` with no sanitization: every own
field of the live player object is serialized, the `inputs` queue
included. -/
def oldPlayerJson (p : OldPlayer) : JVal :=
  .obj [("id", .str p.id), ("x", .num p.x), ("y", .num p.y),
        ("score", .num p.score), ("color", .str p.color),
        ("inputs", .arr (p.inputs.map .str))]

/-- The older server's freshly connected player (`inputs: []`). -/
def oldInitPlayer (pid col : String) : OldPlayer :=
  { id := pid, x := MAP_WIDTH / 2, y := MAP_HEIGHT / 2, score := 0,
    color := col, inputs := [] }

/-! ## Snapshot emission and timestamps

Each tick stamps its state packet with `timestamp: Date.now()`.  The
wall-clock readings at successive ticks are an oracle `clock : ℕ → ℚ`;
the world content at tick `k` is likewise abstracted by an oracle. -/

/-- A sanitized player view as it appears inside a snapshot on the
client side. -/
structure SPlayer where
  x : ℚ
  y : ℚ
  score : ℕ
  color : String
deriving DecidableEq, Repr

/-- A state snapshot: sanitized players keyed by id, the coin list, and
the server's emission wall-clock stamp. -/
structure Snapshot where
  players : List (String × SPlayer)
  coins : List Coin
  timestamp : ℚ
deriving DecidableEq, Repr

/-- The snapshot the game loop emits at tick `k`:
world content at `k`, stamped `timestamp: Date.now()` = `clock k`. -/
def emittedSnapshot (world : ℕ → List (String × SPlayer) × List Coin)
    (clock : ℕ → ℚ) (k : ℕ) : Snapshot :=
  { players := (world k).1, coins := (world k).2, timestamp := clock k }

/-! ## The client: snapshot buffer, bracketing scan, interpolation
(`public/client.js`) -/

/-- The bracketing scan of `getCurrentState`: walk the buffer
oldest-to-newest, remembering the last snapshot with
`timestamp <= renderTimestamp` as `prev`, and stopping at the first one
with a later timestamp as `next`. -/
def findBracketGo (target : ℚ) :
    List Snapshot → Option Snapshot → Option Snapshot × Option Snapshot
  | [], prev => (prev, none)
  | s :: rest, prev =>
    if s.timestamp ≤ target then findBracketGo target rest (some s)
    else (prev, some s)

/-- The bracketing scan, started on the whole buffer with no `prev` yet. -/
def findBracket (buf : List Snapshot) (target : ℚ) :
    Option Snapshot × Option Snapshot :=
  findBracketGo target buf none

/-- The interpolation factor
`t = (renderTimestamp - prev.timestamp) / (next.timestamp - prev.timestamp)`. -/
def interpT (prev next : Snapshot) (target : ℚ) : ℚ :=
  (target - prev.timestamp) / (next.timestamp - prev.timestamp)

/-- Linear blend of one player:
`{ x: pPrev.x + (pNext.x - pPrev.x) * t, y: …, color: pNext.color,`
`score: pNext.score }`. -/
def lerpPlayer (pPrev pNext : SPlayer) (t : ℚ) : SPlayer :=
  { x := pPrev.x + (pNext.x - pPrev.x) * t,
    y := pPrev.y + (pNext.y - pPrev.y) * t,
    color := pNext.color,
    score := pNext.score }

/-- The `interpolatedPlayers` map: iterate over the players of `next`;
a player also present in `prev` is lerped, a newly appeared one snaps to
its `next` entry. -/
def lerpPlayers (prev next : Snapshot) (t : ℚ) : List (String × SPlayer) :=
  next.players.map fun e =>
    match prev.players.lookup e.1 with
    | some pPrev => (e.1, lerpPlayer pPrev e.2 t)
    | none => e

/-- What the render loop consumes: a players-by-id view plus coins (the
raw-snapshot fallback's extra `timestamp` field is never read). -/
structure RenderState where
  players : List (String × SPlayer)
  coins : List Coin
deriving DecidableEq, Repr

/-- Client `getCurrentState()`: bracket the render time `now - RENDER_DELAY`; with
both brackets found, lerp the players of `next` and take `next`'s coins;
otherwise fall back to the latest buffered snapshot
(`stateBuffer[stateBuffer.length - 1]`, `none` on an empty buffer, where
the JS expression is `undefined`). -/
def getCurrentState (buf : List Snapshot) (now : ℚ) : Option RenderState :=
  match findBracket buf (now - RENDER_DELAY) with
  | (some prev, some next) =>
    some { players := lerpPlayers prev next (interpT prev next (now - RENDER_DELAY)),
           coins := next.coins }
  | _ => (buf.getLast?).map fun s => { players := s.players, coins := s.coins }

/-- One frame of the render loop after clearing the canvas: content is
drawn only under the `stateBuffer.length > 1` guard, and only when
`getCurrentState()` returned something; `none` is an empty frame. -/
def renderFrame (buf : List Snapshot) (now : ℚ) : Option RenderState :=
  if buf.length > 1 then getCurrentState buf now else none

/-- Point `q` lies on the straight segment between `a` and `b` (2D points
as pairs): some single parameter `s ∈ [0,1]` produces both coordinates. -/
def onSegment (a b q : ℚ × ℚ) : Prop :=
  ∃ s : ℚ, 0 ≤ s ∧ s ≤ 1 ∧
    q.1 = a.1 + (b.1 - a.1) * s ∧ q.2 = a.2 + (b.2 - a.2) * s

/-! ## Helper lemmas -/

theorem clampX_nonneg (x : ℚ) : 0 ≤ clampX x := le_max_left 0 _

theorem clampX_le (x : ℚ) : clampX x ≤ MAP_WIDTH :=
  max_le (by unfold MAP_WIDTH; norm_num) (min_le_left _ _)

theorem clampY_nonneg (y : ℚ) : 0 ≤ clampY y := le_max_left 0 _

theorem clampY_le (y : ℚ) : clampY y ≤ MAP_HEIGHT :=
  max_le (by unfold MAP_HEIGHT; norm_num) (min_le_left _ _)

theorem inBounds_applyEvent (p : Player) (e : PEvent) (h : inBounds p) :
    inBounds (applyEvent p e) := by
  cases e with
  | start d => simpa [applyEvent, setPressed, inBounds] using h
  | stop d => simpa [applyEvent, setPressed, inBounds] using h
  | singleShot d =>
    unfold applyEvent oneShotMove inBounds
    exact ⟨clampX_nonneg _, clampX_le _, clampY_nonneg _, clampY_le _⟩
  | tick =>
    unfold applyEvent movePlayer inBounds
    exact ⟨clampX_nonneg _, clampX_le _, clampY_nonneg _, clampY_le _⟩

theorem inBounds_runEvents (es : List PEvent) (p : Player) (h : inBounds p) :
    inBounds (runEvents es p) := by
  induction es generalizing p with
  | nil => simpa [runEvents] using h
  | cons e rest ih =>
    simpa [runEvents] using ih (applyEvent p e) (inBounds_applyEvent p e h)

theorem Pressed.set_set (pr : Pressed) (d : Dir) (b b' : Bool) :
    (pr.set d b).set d b' = pr.set d b' := by
  cases d <;> rfl

theorem Pressed.set_get_self (pr : Pressed) (d : Dir) :
    pr.set d (pr.get d) = pr := by
  cases d <;> rfl

/-! ## Claims -/

/-- C2 (confirmed).  For every sequence of start/stop intents,
backward-compatibility single-shot inputs and game-loop ticks, a player's
position stays within `[0, mapWidth] × [0, mapHeight]` = `[0,800] × [0,600]`:
both the tick movement step and the single-shot branch clamp the resulting
position, intents alone never move a player, and the starting position is
the map center. -/
theorem position_in_bounds (pid col : String) (es : List PEvent) :
    inBounds (runEvents es (initPlayer pid col)) :=
  inBounds_runEvents es _
    (by unfold inBounds initPlayer MAP_WIDTH MAP_HEIGHT; norm_num)

/-- C8 counterexample.  A `start`/`stop` pair for a direction that was
already pressed does not restore the prior pressed-state: it leaves the
direction unpressed. -/
theorem start_stop_not_roundtrip :
    (runEvents [.start .up, .stop .up]
        (setPressed (initPlayer "p8" "c8") .up true)).pressed ≠
      (setPressed (initPlayer "p8" "c8") .up true).pressed := by
  decide

/-- C8 (amended).  A `start` then `stop` intent for direction `d` with no
intervening ticks always leaves `pressed[d] = false` (and everything else
unchanged); the pair restores the prior state exactly when `d` was not
already pressed before the pair. -/
theorem start_stop_clears_pressed (p : Player) (d : Dir) :
    runEvents [.start d, .stop d] p = setPressed p d false ∧
    (p.pressed.get d = false → runEvents [.start d, .stop d] p = p) := by
  have h1 : runEvents [.start d, .stop d] p = setPressed p d false := by
    simp [runEvents, applyEvent, setPressed, Pressed.set_set]
  refine ⟨h1, fun hf => ?_⟩
  rw [h1]
  unfold setPressed
  rw [← hf, Pressed.set_get_self]

/-- C8 witness: the amended law evaluated for a freshly connected player
(nothing pressed) and direction `up`. -/
theorem start_stop_clears_pressed_witness :
    runEvents [.start .up, .stop .up] (initPlayer "p" "c") = initPlayer "p" "c" :=
  (start_stop_clears_pressed (initPlayer "p" "c") .up).2 (by decide)

theorem handleMessage_oneShot (p : Player) (key action : Option String) (d : Dir)
    (hkey : dirOfKey key = some d) (ha : action ≠ some "start")
    (hs : action ≠ some "stop") :
    handleMessage (.obj (some "input") key action) p = oneShotMove p d := by
  simp [handleMessage, hkey, ha, hs]

/-- C6 counterexample.  A message with a valid key but an action outside
`{start, stop}` is not dropped: the backward-compatibility branch
immediately moves the player one step, so the world state changes. -/
theorem invalid_action_moves_player :
    handleMessage (.obj (some "input") (some "up") (some "go"))
        (initPlayer "p6" "c6") ≠ initPlayer "p6" "c6" := by
  intro heq
  rw [handleMessage_oneShot (initPlayer "p6" "c6") (some "up") (some "go") .up
    rfl (by decide) (by decide)] at heq
  have hy := congrArg Player.y heq
  rw [show (oneShotMove (initPlayer "p6" "c6") Dir.up).y =
      clampY (MAP_HEIGHT / 2 - MOVEMENT_SPEED) from rfl,
    show (initPlayer "p6" "c6").y = MAP_HEIGHT / 2 from rfl] at hy
  unfold clampY MAP_HEIGHT MOVEMENT_SPEED at hy
  norm_num [min_def, max_def] at hy

/-- C6 (amended).  Malformed JSON, a `type` other than `input`, or a `key`
outside up/down/left/right is dropped with no effect on the player; but a
valid key whose `action` is outside `{start, stop}` takes the
backward-compatibility branch and applies one clamped single-shot movement
step instead of being dropped. -/
theorem message_drop_semantics (p : Player) :
    handleMessage .malformed p = p ∧
    (∀ ty key action, ty ≠ some "input" →
      handleMessage (.obj ty key action) p = p) ∧
    (∀ ty key action, dirOfKey key = none →
      handleMessage (.obj ty key action) p = p) ∧
    (∀ key action d, dirOfKey key = some d → action ≠ some "start" →
      action ≠ some "stop" →
      handleMessage (.obj (some "input") key action) p = oneShotMove p d) := by
  refine ⟨rfl, ?_, ?_, ?_⟩
  · intro ty key action hty
    simp [handleMessage, hty]
  · intro ty key action hkey
    by_cases hty : ty = some "input"
    · simp [handleMessage, hty, hkey]
    · simp [handleMessage, hty]
  · intro key action d hkey ha hs
    simp [handleMessage, hkey, ha, hs]

/-- C6 witness: a `chat`-typed message leaves a fresh player untouched. -/
theorem message_drop_semantics_witness :
    handleMessage (.obj (some "chat") (some "up") (some "start"))
      (initPlayer "w6" "c") = initPlayer "w6" "c" :=
  (message_drop_semantics (initPlayer "w6" "c")).2.1
    (some "chat") (some "up") (some "start") (by decide)

/-- C7 (confirmed).  With the player and coin radii summing to 30, a player
whose center is at Euclidean distance 29 from a coin's center collides:
its score increases by exactly 1 and the coin is removed and replaced by
the next spawned coin; at distance 31 nothing changes. -/
theorem collision_threshold (p q : Player) (c c' : Coin)
    (oracle oracle' : ℕ → Coin) (k k' : ℕ)
    (h29 : (p.x - c.x) ^ 2 + (p.y - c.y) ^ 2 = 29 ^ 2)
    (h31 : (q.x - c'.x) ^ 2 + (q.y - c'.y) ^ 2 = 31 ^ 2) :
    collides p c = true ∧
    coinLoop oracle 1 (p, [c], k) =
      ({ p with score := p.score + 1 }, [oracle k], k + 1) ∧
    collides q c' = false ∧
    coinLoop oracle' 1 (q, [c'], k') = (q, [c'], k') := by
  have hc : collides p c = true := by
    have hlt : (p.x - c.x) ^ 2 + (p.y - c.y) ^ 2 <
        (PLAYER_SIZE + COIN_SIZE) ^ 2 := by
      rw [h29]; unfold PLAYER_SIZE COIN_SIZE; norm_num
    simpa [collides] using hlt
  have hn : collides q c' = false := by
    have hge : ¬ ((q.x - c'.x) ^ 2 + (q.y - c'.y) ^ 2 <
        (PLAYER_SIZE + COIN_SIZE) ^ 2) := by
      rw [h31]; unfold PLAYER_SIZE COIN_SIZE; norm_num
    simpa [collides] using hge
  refine ⟨hc, ?_, hn, ?_⟩
  · simp [coinLoop, coinStep, hc]
  · simp [coinLoop, coinStep, hn]

/-- A fixed spawn oracle used to evaluate the collision law. -/
def coinOracle7 : ℕ → Coin := fun _ => { cid := "fresh", x := 50, y := 60 }

/-- C7 witness: the centered player against a coin at `(379, 280)`
(distance 29: hit) and against a coin at `(400, 331)` (distance 31:
miss). -/
theorem collision_threshold_witness :
    coinLoop coinOracle7 1 (initPlayer "a" "b", [⟨"c1", 379, 280⟩], 0) =
      ({ initPlayer "a" "b" with score := (initPlayer "a" "b").score + 1 },
        [coinOracle7 0], 1) ∧
    coinLoop coinOracle7 1 (initPlayer "a" "b", [⟨"c2", 400, 331⟩], 0) =
      (initPlayer "a" "b", [⟨"c2", 400, 331⟩], 0) := by
  have h := collision_threshold (initPlayer "a" "b") (initPlayer "a" "b")
    ⟨"c1", 379, 280⟩ ⟨"c2", 400, 331⟩ coinOracle7 coinOracle7 0 0
    (by unfold initPlayer MAP_WIDTH MAP_HEIGHT; norm_num)
    (by unfold initPlayer MAP_WIDTH MAP_HEIGHT; norm_num)
  exact ⟨h.2.1, h.2.2.2⟩

theorem coinStep_coins_length (oracle : ℕ → Coin) (i : ℕ)
    (st : Player × List Coin × ℕ) :
    ((coinStep oracle i st).2.1).length = st.2.1.length := by
  obtain ⟨p, coins, k⟩ := st
  cases hget : coins.get? i with
  | none =>
    simp only [coinStep]
    rw [hget]
  | some c =>
    have hlt : i < coins.length := by
      rw [List.get?_eq_getElem?] at hget
      exact (List.getElem?_eq_some.mp hget).1
    simp only [coinStep]
    rw [hget]
    by_cases hc : collides p c = true
    · simp [hc, List.length_eraseIdx, hlt]
      omega
    · simp [hc]

theorem coinLoop_coins_length (oracle : ℕ → Coin) (n : ℕ)
    (st : Player × List Coin × ℕ) :
    ((coinLoop oracle n st).2.1).length = st.2.1.length := by
  induction n generalizing st with
  | zero => rfl
  | succ m ih =>
    simp only [coinLoop]
    rw [ih (coinStep oracle m st), coinStep_coins_length]

theorem tickPlayerStep_coins_length (oracle : ℕ → Coin)
    (acc : List Player × List Coin × ℕ) (p : Player) :
    ((tickPlayerStep oracle acc p).2.1).length = acc.2.1.length := by
  have h := coinLoop_coins_length oracle acc.2.1.length
    (movePlayer p, acc.2.1, acc.2.2)
  unfold tickPlayerStep
  rcases hE : coinLoop oracle acc.2.1.length (movePlayer p, acc.2.1, acc.2.2)
    with ⟨p2, coins2, k2⟩
  rw [hE] at h
  simpa using h

theorem tickFold_coins_length (oracle : ℕ → Coin) (players : List Player) :
    ∀ acc : List Player × List Coin × ℕ,
      ((players.foldl (tickPlayerStep oracle) acc).2.1).length = acc.2.1.length := by
  induction players with
  | nil => intro acc; rfl
  | cons p rest ih =>
    intro acc
    simp only [List.foldl_cons]
    rw [ih (tickPlayerStep oracle acc p), tickPlayerStep_coins_length]

theorem tickWorld_coins_length (oracle : ℕ → Coin) (players : List Player)
    (coins : List Coin) (k : ℕ) :
    ((tickWorld oracle players coins k).2.1).length = coins.length :=
  tickFold_coins_length oracle players ([], coins, k)

theorem runTicks_coins_length (oracle : ℕ → Coin) (pseq : ℕ → List Player)
    (n : ℕ) (st : List Coin × ℕ) :
    ((runTicks oracle pseq n st).1).length = st.1.length := by
  induction n generalizing st with
  | zero => rfl
  | succ m ih =>
    simp only [runTicks]
    rw [ih]
    exact tickWorld_coins_length oracle (pseq m) st.1 st.2

/-- C3 (confirmed).  After every tick — for any spawn oracle, any per-tick
player population (hence any sequence of movements and collisions) and any
number of elapsed ticks — the coin count still equals the configured pool
size 5: every `splice` of a collected coin is paired with a `spawnCoin`
push inside the same loop iteration. -/
theorem coin_count_invariant (oracle : ℕ → Coin) (pseq : ℕ → List Player)
    (n : ℕ) :
    ((runTicks oracle pseq n (initCoins oracle, 5)).1).length = 5 := by
  rw [runTicks_coins_length]
  simp [initCoins]

/-- The adversarial jitter of the C1 counterexample: the first payload's
timer fires 5 ms late, the second's on time. -/
def jitterCex : ℕ → ℕ := fun i => if i = 0 then 5 else 0

/-- C1 counterexample.  Two payloads submitted at times 0 and 1 (in order)
through the per-message `setTimeout` delay: under 5 ms of jitter on the
first timer only, the second payload is released strictly before the
first, so the release order does not equal the submission order. -/
theorem delay_reorder_counterexample :
    releasedBefore [0, 1] jitterCex 1 0 ∧ ¬ releasedBefore [0, 1] jitterCex 0 1 := by
  decide

/-- C1 (amended).  The per-item `setTimeout` delay preserves submission
order only in the absence of timer jitter: with every timer firing exactly
at its due time (`submit + LATENCY_MS`), payloads submitted at
nondecreasing times are released in submission order (equal due times are
broken by timer-creation order).  Under adversarial jitter the code has no
order guard, and releases can reorder, as the counterexample shows. -/
theorem delay_order_preserved_zero_jitter (sub : List ℕ)
    (hmono : ∀ i j, i < j → j < sub.length → sub.getD i 0 ≤ sub.getD j 0)
    (i j : ℕ) (hij : i < j) (hj : j < sub.length) :
    releasedBefore sub (fun _ => 0) i j := by
  have h := hmono i j hij hj
  unfold releasedBefore
  rcases lt_or_eq_of_le h with hlt | heq
  · exact Or.inl (by simp only [releaseTime]; omega)
  · exact Or.inr ⟨by simp only [releaseTime]; omega, hij⟩

/-- C1 witness: submissions at times 3 and 7, no jitter. -/
theorem delay_order_preserved_zero_jitter_witness :
    releasedBefore [3, 7] (fun _ => 0) 0 1 :=
  delay_order_preserved_zero_jitter [3, 7]
    (by
      intro i j hij hj
      simp only [List.length_cons, List.length_nil] at hj
      interval_cases j
      · omega
      · interval_cases i
        · decide)
    0 1 (by decide) (by decide)

/-- The world-content oracle of the C9 models: an empty world each tick. -/
def worldCex : ℕ → List (String × SPlayer) × List Coin := fun _ => ([], [])

/-- The stalled wall clock of the C9 counterexample. -/
def clockCex : ℕ → ℚ := fun _ => 0

/-- C9 counterexample.  Snapshots are stamped with `Date.now()` and nothing
else orders them; if the wall clock stalls across two ticks the two
snapshots carry equal timestamps, so timestamps are not strictly
increasing in emission order. -/
theorem stalled_clock_equal_timestamps :
    ¬ ((emittedSnapshot worldCex clockCex 0).timestamp <
        (emittedSnapshot worldCex clockCex 1).timestamp) := by
  simp [emittedSnapshot, clockCex]

/-- C9 (amended).  A snapshot's timestamp is exactly the `Date.now()`
reading of its tick, so timestamps are strictly increasing in emission
order whenever the wall-clock readings at successive ticks are strictly
increasing; a stalled or stepped-back clock breaks strictness, as the
counterexample shows. -/
theorem timestamps_increase_with_clock
    (world : ℕ → List (String × SPlayer) × List Coin) (clock : ℕ → ℚ)
    (hclock : ∀ i j : ℕ, i < j → clock i < clock j) (j k : ℕ) (hjk : j < k) :
    (emittedSnapshot world clock j).timestamp <
      (emittedSnapshot world clock k).timestamp :=
  hclock j k hjk

/-- C9 witness: a strictly increasing clock, ticks 0 and 1. -/
theorem timestamps_increase_with_clock_witness :
    (emittedSnapshot worldCex (fun n => (n : ℚ)) 0).timestamp <
      (emittedSnapshot worldCex (fun n => (n : ℚ)) 1).timestamp :=
  timestamps_increase_with_clock worldCex (fun n => (n : ℚ))
    (fun i j h => by simpa using (Nat.cast_lt (α := ℚ)).mpr h) 0 1 (by decide)

/-- C5 (amended).  In the current server version every broadcast per-player
view serializes exactly the fields `{id, x, y, score, color}`; the
pressed-state is never among its keys.  (The claim fails for the older
server version, which serializes the live player objects directly: see the
counterexample.) -/
theorem snapshot_fields_sanitized (p : Player) :
    (playerForSendJson p).keys = ["id", "x", "y", "score", "color"] ∧
    "pressed" ∉ (playerForSendJson p).keys := by
  refine ⟨rfl, ?_⟩
  rw [show (playerForSendJson p).keys = ["id", "x", "y", "score", "color"] from rfl]
  decide

/-- C5 counterexample.  The older server version puts `players: PLAYERS`
straight into the state packet, so a freshly connected player's view
serializes its server-only `inputs` queue: its key set is not exactly
`{id, x, y, score, color}`. -/
theorem old_snapshot_leaks_inputs :
    "inputs" ∈ (oldPlayerJson (oldInitPlayer "p5" "c5")).keys ∧
    (oldPlayerJson (oldInitPlayer "p5" "c5")).keys ≠
      ["id", "x", "y", "score", "color"] := by
  rw [show (oldPlayerJson (oldInitPlayer "p5" "c5")).keys =
    ["id", "x", "y", "score", "color", "inputs"] from rfl]
  exact ⟨by decide, by decide⟩

/-- C4 (confirmed).  Whenever the bracketing scan finds `prev` and `next`
with `prev.timestamp < targetTime < next.timestamp`, `getCurrentState`
interpolates with that bracket, the factor `t` lies in `[0, 1]`, and every
player present in both snapshots is placed exactly on the straight segment
between its `prev` and `next` positions. -/
theorem interp_t_in_unit_onSegment (buf : List Snapshot) (now : ℚ)
    (prev next : Snapshot)
    (hb : findBracket buf (now - RENDER_DELAY) = (some prev, some next))
    (h1 : prev.timestamp < now - RENDER_DELAY)
    (h2 : now - RENDER_DELAY < next.timestamp) :
    getCurrentState buf now =
      some { players := lerpPlayers prev next (interpT prev next (now - RENDER_DELAY)),
             coins := next.coins } ∧
    0 ≤ interpT prev next (now - RENDER_DELAY) ∧
    interpT prev next (now - RENDER_DELAY) ≤ 1 ∧
    ∀ pid pN pP, (pid, pN) ∈ next.players →
      prev.players.lookup pid = some pP →
      (pid, lerpPlayer pP pN (interpT prev next (now - RENDER_DELAY))) ∈
        lerpPlayers prev next (interpT prev next (now - RENDER_DELAY)) ∧
      onSegment (pP.x, pP.y) (pN.x, pN.y)
        ((lerpPlayer pP pN (interpT prev next (now - RENDER_DELAY))).x,
         (lerpPlayer pP pN (interpT prev next (now - RENDER_DELAY))).y) := by
  have hd : 0 < next.timestamp - prev.timestamp := by linarith
  have ht0 : 0 ≤ interpT prev next (now - RENDER_DELAY) := by
    unfold interpT
    exact div_nonneg (by linarith) (le_of_lt hd)
  have ht1 : interpT prev next (now - RENDER_DELAY) ≤ 1 := by
    unfold interpT
    rw [div_le_one hd]
    linarith
  refine ⟨?_, ht0, ht1, ?_⟩
  · unfold getCurrentState
    rw [hb]
  · intro pid pN pP hmem hlook
    constructor
    · unfold lerpPlayers
      exact List.mem_map.mpr ⟨(pid, pN), hmem, by simp [hlook]⟩
    · exact ⟨interpT prev next (now - RENDER_DELAY), ht0, ht1, rfl, rfl⟩

/-- The snapshot pair of the C4 witness: Scenario B of the spec, player
`a` at `x = 100` at `t = 1000` and `x = 110` at `t = 1050`. -/
def snapPrevW : Snapshot :=
  { players := [("a", { x := 100, y := 200, score := 0, color := "red" })],
    coins := [], timestamp := 1000 }

def snapNextW : Snapshot :=
  { players := [("a", { x := 110, y := 220, score := 1, color := "red" })],
    coins := [], timestamp := 1050 }

/-- C4 witness: buffer `[snapPrevW, snapNextW]`, render time 1125, so the
target 1025 is strictly bracketed. -/
theorem interp_t_in_unit_onSegment_witness :
    findBracket [snapPrevW, snapNextW] ((1125 : ℚ) - RENDER_DELAY) =
      (some snapPrevW, some snapNextW) ∧
    0 ≤ interpT snapPrevW snapNextW ((1125 : ℚ) - RENDER_DELAY) ∧
    interpT snapPrevW snapNextW ((1125 : ℚ) - RENDER_DELAY) ≤ 1 := by
  have hb : findBracket [snapPrevW, snapNextW] ((1125 : ℚ) - RENDER_DELAY) =
      (some snapPrevW, some snapNextW) := by
    norm_num [findBracket, findBracketGo, snapPrevW, snapNextW, RENDER_DELAY]
  have h := interp_t_in_unit_onSegment [snapPrevW, snapNextW] 1125
    snapPrevW snapNextW hb (by norm_num [snapPrevW, RENDER_DELAY])
    (by norm_num [snapNextW, RENDER_DELAY])
  exact ⟨hb, h.2.1, h.2.2.1⟩

/-- C10 (confirmed).  With fewer than two buffered snapshots the render
loop draws nothing at all; in particular with exactly one snapshot the
frame stays empty even though `getCurrentState` would have fallen back to
that snapshot — the degraded fall-back can engage only once the buffer
holds at least two snapshots. -/
theorem render_skips_single_snapshot (buf : List Snapshot) (now : ℚ)
    (h : buf.length < 2) :
    renderFrame buf now = none ∧
    ∀ s, buf = [s] → (getCurrentState buf now).isSome = true := by
  constructor
  · unfold renderFrame
    rw [if_neg (by omega)]
  · rintro s rfl
    unfold getCurrentState findBracket
    by_cases hs : s.timestamp ≤ now - RENDER_DELAY
    · simp [findBracketGo, hs]
    · simp [findBracketGo, hs]

/-- The single buffered snapshot of the C10 witness. -/
def snapSoloW : Snapshot := { players := [], coins := [], timestamp := 0 }

/-- C10 witness: one buffered snapshot, render time 5. -/
theorem render_skips_single_snapshot_witness :
    renderFrame [snapSoloW] 5 = none ∧
    (getCurrentState [snapSoloW] 5).isSome = true :=
  ⟨(render_skips_single_snapshot [snapSoloW] 5 (by decide)).1,
   (render_skips_single_snapshot [snapSoloW] 5 (by decide)).2 snapSoloW rfl⟩

end CoinGame
